import Mathlib

/-!
Shallow embedding of `componentpermissions/api.py`
(`ComponentPermissionsPolicy`): permission-token derivation from component
names, bypass computation, the central `check_permission` decision, and the
`post_process_request` visibility filter, together with proofs of the
specification claims about them.
-/

namespace ComponentPermissions

/-! ### Characters and strings

The character class `[a-zA-Z0-9]` of the regex in `_get_permission_name`,
modelled as an explicit list of the 62 ASCII alphanumeric characters.
-/

/-- The 62 characters matched by `[a-zA-Z0-9]`. -/
def keepChars : List Char :=
  ['a','b','c','d','e','f','g','h','i','j','k','l','m','n','o','p','q','r',
   's','t','u','v','w','x','y','z',
   'A','B','C','D','E','F','G','H','I','J','K','L','M','N','O','P','Q','R',
   'S','T','U','V','W','X','Y','Z',
   '0','1','2','3','4','5','6','7','8','9']

/-- Whether a character is ASCII alphanumeric (matches `[a-zA-Z0-9]`). -/
def keepChar (c : Char) : Bool := decide (c ∈ keepChars)

/-- ASCII model of Python `str.upper` on a single character.  The strings it
is applied to in this development consist of ASCII alphanumerics and
underscores, on which this agrees with Python. -/
def upChar (c : Char) : Char :=
  if 97 ≤ c.toNat ∧ c.toNat ≤ 122 then Char.ofNat (c.toNat - 32) else c

/-- ASCII model of Python `str.lower` on a single character. -/
def downChar (c : Char) : Char :=
  if 65 ≤ c.toNat ∧ c.toNat ≤ 90 then Char.ofNat (c.toNat + 32) else c

/-- The characters a normalized core may contain besides `_`: uppercase
ASCII letters and digits. -/
def upperKeepChars : List Char :=
  ['A','B','C','D','E','F','G','H','I','J','K','L','M','N','O','P','Q','R',
   'S','T','U','V','W','X','Y','Z','0','1','2','3','4','5','6','7','8','9']

/-- Two adjacent characters are not both underscores: holding along a
string, this says no `__` occurs in it. -/
def undApart (a b : Char) : Prop := ¬(a = '_' ∧ b = '_')

/-- Replace each maximal run of non-alphanumeric characters by a single
underscore: `re.sub('[^a-zA-Z0-9]+', '_', ·)`.  The flag records whether we
are currently inside a non-alphanumeric run (whose `'_'` has already been
emitted). -/
def collapseGo (inRun : Bool) : List Char → List Char
  | [] => []
  | c :: cs =>
    if keepChar c then c :: collapseGo false cs
    else if inRun then collapseGo true cs
    else '_' :: collapseGo true cs

/-- `re.sub('[^a-zA-Z0-9]+', '_', ·)` on a character list. -/
def pySub (l : List Char) : List Char := collapseGo false l

/-- Python `str.strip('_')`: remove leading and trailing underscores. -/
def pyStripUnd (l : List Char) : List Char :=
  (((l.dropWhile (fun c => c = '_')).reverse.dropWhile (fun c => c = '_'))).reverse

/-- The normalized core of a component name:
`re.sub('[^a-zA-Z0-9]+', '_', component).strip('_').upper()`. -/
def normalizeCore (s : String) : String :=
  String.mk ((pyStripUnd (pySub s.data)).map upChar)

/-- `ComponentPermissionsPolicy._get_permission_name`: derive the permission
token for a component name, or `none` when the normalized core is empty. -/
def _get_permission_name (component : String) : Option String :=
  let name := normalizeCore component
  if name ≠ "" then some ("COMPONENT_" ++ name ++ "_VIEW") else none

/-! ### Splitting the cc field

`NotifyEmail.addrsep_re` is `[;\s,]+`; the cc list is the list of nonempty
tokens between separators. -/

/-- Python `\s` on ASCII text: space, tab, newline, carriage return,
vertical tab, form feed. -/
def pyWs (c : Char) : Bool :=
  c = ' ' || c = '\t' || c = '\n' || c = '\r' || c = '\x0b' || c = '\x0c'

/-- A character matched by the address separator regex `[;\s,]`. -/
def addrsepChar (c : Char) : Bool := c = ';' || c = ',' || pyWs c

/-- Maximal runs of characters satisfying `keep`; the accumulator holds the
current run reversed. -/
def splitRunsGo (keep : Char → Bool) (cur : List Char) : List Char → List (List Char)
  | [] => if cur.isEmpty then [] else [cur.reverse]
  | c :: cs =>
    if keep c then splitRunsGo keep (c :: cur) cs
    else if cur.isEmpty then splitRunsGo keep [] cs
    else cur.reverse :: splitRunsGo keep [] cs

/-- `[user for user in NotifyEmail.addrsep_re.split(cc) if user]`. -/
def ccList (cc : String) : List String :=
  (splitRunsGo (fun c => !addrsepChar c) [] cc.data).map String.mk

/-! ### `trac.util.as_bool`

Ticket field values are strings; `ticket.values.get(name, 0)` supplies the
integer `0` default, so a value is either a string or that integer. -/

/-- A value read out of `ticket.values.get(name, 0)`. -/
inductive PyVal where
  | str (s : String)
  | int (n : Int)
deriving DecidableEq, Repr

/-- Strip surrounding Python whitespace from a character list. -/
def stripWsL (l : List Char) : List Char :=
  ((l.dropWhile pyWs).reverse.dropWhile pyWs).reverse

/-- Whether the tail of a numeral is a well-formed exponent part
(`e`/`E`, optional sign, at least one digit) or empty. -/
def expOk : List Char → Bool
  | [] => true
  | c :: rest =>
    (c = 'e' || c = 'E') &&
    (let rest2 := match rest with
       | s :: r2 => if s = '+' || s = '-' then r2 else rest
       | [] => rest
     !rest2.isEmpty && rest2.all Char.isDigit)

/-- Model of `float(s)` restricted to decimal numerals (sign, digits,
optional fraction, optional exponent; `inf`/`nan` spellings are not
modelled).  Returns `some b` when the parse succeeds, where `b` says whether
the value is nonzero, and `none` on `ValueError`. -/
def floatTruthy (s : String) : Option Bool :=
  let l0 := stripWsL s.data
  let l1 := match l0 with
    | c :: r => if c = '+' || c = '-' then r else l0
    | [] => []
  let ip := l1.takeWhile Char.isDigit
  let rest1 := l1.dropWhile Char.isDigit
  let fr : List Char × List Char := match rest1 with
    | '.' :: r => (r.takeWhile Char.isDigit, r.dropWhile Char.isDigit)
    | _ => ([], rest1)
  if (!ip.isEmpty || !fr.1.isEmpty) && expOk fr.2 then
    some ((ip ++ fr.1).any (fun c => c ≠ '0'))
  else none

/-- `trac.util.as_bool`: a string is truthy when it parses as a nonzero
number, or, failing that, when its stripped lowercase form is one of
`yes`, `true`, `enabled`, `on`; an integer is truthy when nonzero. -/
def as_bool : PyVal → Bool
  | .str s =>
    match floatTruthy s with
    | some b => b
    | none =>
      decide (String.mk ((stripWsL s.data).map downChar)
              ∈ ["yes", "true", "enabled", "on"])
  | .int n => decide (n ≠ 0)

/-! ### Data model -/

/-- A ticket: its `values` dictionary of field values (owner, reporter, cc,
component, custom fields, ...), keyed by field name. -/
structure Ticket where
  values : List (String × String)
deriving DecidableEq, Repr

/-- `ticket[name]` / `ticket.values.get(name)`. -/
def Ticket.get (t : Ticket) (k : String) : Option String :=
  (t.values.find? (fun p => p.1 = k)).map (·.2)

/-- `ticket.values.get(name, 0)`: the stored string, or the integer `0`. -/
def Ticket.getVal (t : Ticket) (k : String) : PyVal :=
  match t.get k with
  | some s => .str s
  | none => .int 0

/-- The `[component-permissions]` configuration options, in source order. -/
structure Config where
  ticket_field_name : String
  allow_reporter : Bool
  allow_cc : Bool
  allow_owner : Bool
  allow_cc_email : Bool
  hide_components : Bool
deriving DecidableEq, Repr

/-- The external collaborators: the component catalog, the ticket store
(`model.Ticket`, `none` meaning `ResourceNotFound`), the session-attribute
email lookup of `_get_email`, and the optional account manager's
`email_verified` check. -/
structure Env where
  components : List String
  tickets : List (Int × Ticket)
  email : String → Option String
  emailVerified : Option (String → String → Bool)

/-- `model.Ticket(self.env, id)`: load a ticket, `none` on
`ResourceNotFound`. -/
def Env.loadTicket (env : Env) (i : Int) : Option Ticket :=
  (env.tickets.find? (fun p => p.1 == i)).map (·.2)

/-- A resource: realm, id (already converted to an integer where concrete),
and parent chain. -/
inductive Resource where
  | mk (realm : String) (id : Option Int) (parent : Option Resource)

/-- The realm of a resource. -/
def Resource.realm : Resource → String
  | .mk r _ _ => r

/-- The id of a resource. -/
def Resource.id : Resource → Option Int
  | .mk _ i _ => i

/-- The `while resource:` walk of `check_permission`: the nearest resource
in the parent chain whose realm is `ticket`, if any. -/
def Resource.findTicket : Resource → Option Resource
  | .mk realm id parent =>
    if realm = "ticket" then some (.mk realm id parent)
    else match parent with
      | none => none
      | some p => p.findTicket

/-- Resolve an optional resource to its enclosing ticket resource. -/
def findTicketResource : Option Resource → Option Resource
  | none => none
  | some r => r.findTicket

/-- The decisions a Trac permission policy can return: `True` (allow),
`None` (abstain) or `False` (deny). -/
inductive Decision where
  | Allow
  | Abstain
  | Deny
deriving DecidableEq, Repr

/-! ### The policy methods -/

/-- `ComponentPermissionsPolicy._get_bypass`. -/
def _get_bypass (cfg : Config) (env : Env) (ticket : Ticket) (username : String) : Bool :=
  if username = "" ∨ username = "anonymous" then false
  else if cfg.allow_owner ∧ ticket.get "owner" = some username then true
  else if cfg.allow_reporter ∧ ticket.get "reporter" = some username then true
  else if ¬cfg.allow_cc ∧ ¬cfg.allow_cc_email then false
  else
    -- the cc field is a string on every stored ticket ("" when unset)
    let cc_list := ccList ((ticket.get "cc").getD "")
    if cfg.allow_cc ∧ username ∈ cc_list then true
    else if cfg.allow_cc_email then
      match env.email username with
      | some email =>
        if email ≠ "" ∧ email ∈ cc_list then
          match env.emailVerified with
          | some verified => verified username email
          | none => true
        else false
      | none => false
    else false

/-- `ComponentPermissionsPolicy.get_permission_actions`: `COMPONENT_VIEW`
plus one derived token per component for which derivation succeeds. -/
def get_permission_actions (env : Env) : List String :=
  "COMPONENT_VIEW" :: env.components.filterMap _get_permission_name

/-- The `should_check_permissions` value of `check_permission`, passed
through `as_bool`: enforcement is active when `ticket_field_name` is unset,
or else when the ticket's value for that field is truthy (missing treated as
`0`). -/
def should_check_permissions (cfg : Config) (t : Ticket) : Bool :=
  if cfg.ticket_field_name = "" then true
  else as_bool (t.getVal cfg.ticket_field_name)

/-- The `component_permission` local of `check_permission`: the ticket's
derived component token when the ticket has a non-empty component whose
derived token is a recognized action, else the default `COMPONENT_VIEW`. -/
def component_permission (env : Env) (t : Ticket) : String :=
  match t.get "component" with
  | some c =>
    if c ≠ "" then
      match _get_permission_name c with
      | some p => if p ∈ get_permission_actions env then p else "COMPONENT_VIEW"
      | none => "COMPONENT_VIEW"
    else "COMPONENT_VIEW"
  | none => "COMPONENT_VIEW"

/-- `ComponentPermissionsPolicy.check_permission`. -/
def check_permission (env : Env) (cfg : Config) (action username : String)
    (resource : Option Resource) (perm : List String) : Decision :=
  if action ∈ get_permission_actions env then .Abstain
  else if action = "SENSITIVE_VIEW" then .Abstain
  else
    match findTicketResource resource with
    | none => .Abstain
    | some r =>
      match r.id with
      | none => .Abstain
      | some tid =>
        match env.loadTicket tid with
        | none =>
          -- ResourceNotFound: should_check_permissions = 1 (fail safe),
          -- component_permission = 'COMPONENT_VIEW', bypass = False
          if "COMPONENT_VIEW" ∉ perm then .Deny else .Abstain
        | some t =>
          if should_check_permissions cfg t then
            if component_permission env t ∉ perm ∧ "COMPONENT_VIEW" ∉ perm
                ∧ _get_bypass cfg env t username = false then .Deny
            else .Abstain
          else .Abstain

/-! ### The visibility filter -/

/-- A rendered ticket field: its name and its option list. -/
structure Field where
  name : String
  options : List String
deriving DecidableEq, Repr

/-- The query object held in the page data: only its `group` attribute is
read by the filter. -/
structure Query where
  group : String
deriving DecidableEq, Repr

/-- The page data dictionary: the optional `fields` list, the optional
`query` object, the optional `groups` list of `(component, tickets)` pairs,
and the remaining entries, which the filter never touches. -/
structure PageData where
  fields : Option (List Field)
  query : Option Query
  groups : Option (List (String × List Int))
  extra : List (String × String)
deriving DecidableEq, Repr

/-- The outcome of `post_process_request`: the returned triple, plus the
(possibly mutated) `script_data` component properties of `req.chrome`. -/
structure ProcessResult where
  template : String
  data : PageData
  content_type : String
  scriptProperties : Option (List (String × List String))
deriving DecidableEq, Repr

/-- The templates on which the filter acts. -/
def knownTemplates : List String :=
  ["ticket_box.html", "ticket.html", "ticket_preview.html", "query.html"]

/-- `self._get_permission_name(component) in req.perm` (a `None` token is
never in the permission set). -/
def derivedInPerm (perm : List String) (component : String) : Bool :=
  match _get_permission_name component with
  | some p => decide (p ∈ perm)
  | none => false

/-- Filter the options of the first field named `component` (the loop
breaks after it), leaving all other fields unchanged. -/
def filterComponentField (perm : List String) : List Field → List Field
  | [] => []
  | f :: fs =>
    if f.name = "component" then
      ⟨f.name, f.options.filter (derivedInPerm perm)⟩ :: fs
    else f :: filterComponentField perm fs

/-- The same filtering on the `script_data` properties (keyed by field
name). -/
def filterComponentProps (perm : List String) :
    List (String × List String) → List (String × List String)
  | [] => []
  | p :: ps =>
    if p.1 = "component" then (p.1, p.2.filter (derivedInPerm perm)) :: ps
    else p :: filterComponentProps perm ps

/-- `ComponentPermissionsPolicy.post_process_request`. -/
def post_process_request (cfg : Config) (reqPerm : List String)
    (scriptProperties : Option (List (String × List String)))
    (template : String) (data : PageData) (content_type : String) : ProcessResult :=
  if cfg.hide_components ∧ cfg.ticket_field_name = "" ∧ "COMPONENT_VIEW" ∉ reqPerm
      ∧ template ∈ knownTemplates then
    let fields' := match data.fields with
      | some fs => if fs.isEmpty then some fs else some (filterComponentField reqPerm fs)
      | none => none
    let props' := match scriptProperties with
      | some ps => if ps.isEmpty then some ps else some (filterComponentProps reqPerm ps)
      | none => none
    let groups' := match data.query, data.groups with
      | some q, some gs =>
        if q.group = "component" then
          some (gs.filter (fun g => derivedInPerm reqPerm g.1))
        else some gs
      | _, _ => data.groups
    ⟨template, ⟨fields', data.query, groups', data.extra⟩, content_type, props'⟩
  else ⟨template, data, content_type, scriptProperties⟩

/-! ### Concrete fixtures used by counterexamples and witnesses -/

/-- A ticket in component `Backend`, owned by alice, reported by bob. -/
def backendTicket : Ticket :=
  ⟨[("owner", "alice"), ("reporter", "bob"), ("cc", ""), ("component", "Backend")]⟩

/-- An environment with one component `Backend` and one ticket, id 1. -/
def backendEnv : Env := ⟨["Backend"], [(1, backendTicket)], fun _ => none, none⟩

/-- The ticket resource with id 1. -/
def ticketRes : Resource := .mk "ticket" (some 1) none

/-- A ticket resource with id 7, which does not exist in `backendEnv`. -/
def res7 : Resource := .mk "ticket" (some 7) none

/-- Configuration with every option at its default. -/
def plainCfg : Config := ⟨"", false, false, false, false, false⟩

/-- The ticket of the spec's bypass truth table. -/
def tableTicket : Ticket :=
  ⟨[("owner", "alice"), ("reporter", "bob"), ("cc", "carol, dave@x.com")]⟩

/-- The configuration of the spec's bypass truth table:
`allow_owner = true`, `allow_reporter = false`, `allow_cc = true`,
`allow_cc_email = false`. -/
def tableCfg : Config := ⟨"", false, true, true, false, false⟩

/-- An environment with no components, tickets, or identity service. -/
def emptyEnv : Env := ⟨[], [], fun _ => none, none⟩

/-- Configuration with only `hide_components` set. -/
def hideCfg : Config := ⟨"", false, false, false, false, true⟩

/-- Page data with nothing in it. -/
def emptyData : PageData := ⟨none, none, none, []⟩

/-! ### Frame lemmas for the visibility filter -/

theorem filterComponentField_length (perm : List String) (fs : List Field) :
    (filterComponentField perm fs).length = fs.length := by
  induction fs with
  | nil => rfl
  | cons f fs ih =>
    unfold filterComponentField
    by_cases h : f.name = "component" <;> simp [h, ih]

theorem filterComponentField_getElem (perm : List String) (fs : List Field) (i : Nat) :
    (filterComponentField perm fs)[i]? = fs[i]?
    ∨ ∃ f, fs[i]? = some f ∧ f.name = "component"
        ∧ (filterComponentField perm fs)[i]?
            = some (Field.mk "component" (f.options.filter (derivedInPerm perm))) := by
  induction fs generalizing i with
  | nil => left; rfl
  | cons f fs ih =>
    unfold filterComponentField
    by_cases h : f.name = "component"
    · cases i with
      | zero => right; exact ⟨f, by simp, h, by simp [h]⟩
      | succ j => left; simp [h]
    · cases i with
      | zero => left; simp [h]
      | succ j =>
        rcases ih j with hj | ⟨g, hg1, hg2, hg3⟩
        · left; simp [h, hj]
        · right; exact ⟨g, by simpa using hg1, hg2, by simp [h]; exact hg3⟩

/-! ### Normalization lemmas

Structure of `collapseGo`/`pyStripUnd` output: every character is
alphanumeric or `_`, no two underscores are adjacent, and after stripping
no underscore sits at either end; such lists are fixed points of the
pipeline. -/

theorem keepChar_underscore : keepChar '_' = false := by decide

theorem upChar_underscore : upChar '_' = '_' := by decide

theorem upChar_mem_keep {c : Char} (h : c ∈ keepChars) : upChar c ∈ keepChars := by
  fin_cases h <;> decide

theorem upChar_ne_und {c : Char} (h : c ∈ keepChars) : upChar c ≠ '_' := by
  fin_cases h <;> decide

theorem upChar_idem_keep {c : Char} (h : c ∈ keepChars) :
    upChar (upChar c) = upChar c := by
  fin_cases h <;> decide

theorem upChar_mem_upper {c : Char} (h : c ∈ keepChars) :
    upChar c ∈ upperKeepChars := by
  fin_cases h <;> decide

theorem upper_mem_keep {c : Char} (h : c ∈ upperKeepChars) : c ∈ keepChars := by
  fin_cases h <;> decide

theorem mem_collapseGo {b : Bool} {l : List Char} {c : Char}
    (h : c ∈ collapseGo b l) : keepChar c = true ∨ c = '_' := by
  induction l generalizing b with
  | nil => cases h
  | cons d cs ih =>
    unfold collapseGo at h
    by_cases hd : keepChar d
    · rw [if_pos hd] at h
      rcases List.mem_cons.mp h with rfl | h
      · exact Or.inl hd
      · exact ih h
    · rw [if_neg hd] at h
      cases b with
      | true => exact ih h
      | false =>
        rcases List.mem_cons.mp h with rfl | h
        · exact Or.inr rfl
        · exact ih h

theorem head?_collapseGo_true {l : List Char} {c : Char}
    (h : (collapseGo true l).head? = some c) : keepChar c = true := by
  induction l with
  | nil => cases h
  | cons d cs ih =>
    unfold collapseGo at h
    by_cases hd : keepChar d
    · rw [if_pos hd] at h
      rw [List.head?_cons, Option.some.injEq] at h
      exact h ▸ hd
    · rw [if_neg hd, if_pos rfl] at h
      exact ih h

theorem chain'_collapseGo (b : Bool) (l : List Char) :
    List.Chain' undApart (collapseGo b l) := by
  induction l generalizing b with
  | nil => exact List.chain'_nil
  | cons d cs ih =>
    unfold collapseGo
    by_cases hd : keepChar d
    · rw [if_pos hd]
      refine List.chain'_cons'.mpr ⟨?_, ih false⟩
      rintro y - ⟨rfl, -⟩
      rw [keepChar_underscore] at hd
      exact Bool.false_ne_true hd
    · rw [if_neg hd]
      cases b with
      | true => exact ih true
      | false =>
        rw [if_neg Bool.false_ne_true]
        refine List.chain'_cons'.mpr ⟨?_, ih true⟩
        rintro y hy ⟨-, rfl⟩
        have := head?_collapseGo_true (Option.mem_def.mp hy)
        rw [keepChar_underscore] at this
        cases this

theorem collapseGo_fix {l : List Char}
    (hmem : ∀ c ∈ l, keepChar c = true ∨ c = '_')
    (hch : List.Chain' undApart l) :
    collapseGo false l = l ∧ (l.head? ≠ some '_' → collapseGo true l = l) := by
  induction l with
  | nil => exact ⟨rfl, fun _ => rfl⟩
  | cons d cs ih =>
    obtain ⟨hhead, htail⟩ := List.chain'_cons'.mp hch
    have ihcs := ih (fun c hc => hmem c (List.mem_cons_of_mem d hc)) htail
    rcases hmem d (List.mem_cons_self d cs) with hd | rfl
    · constructor
      · unfold collapseGo
        rw [if_pos hd, ihcs.1]
      · intro _
        unfold collapseGo
        rw [if_pos hd, ihcs.1]
    · have hne : cs.head? ≠ some '_' := by
        intro heq
        exact (hhead '_' (Option.mem_def.mpr heq)) ⟨rfl, rfl⟩
      constructor
      · unfold collapseGo
        rw [if_neg (by rw [keepChar_underscore]; exact Bool.false_ne_true),
          if_neg Bool.false_ne_true]
        rw [ihcs.2 hne]
      · intro hcontra
        exact absurd rfl hcontra

theorem dropWhile_und_eq_self {l : List Char} (h : l.head? ≠ some '_') :
    l.dropWhile (fun c => c = '_') = l := by
  cases l with
  | nil => rfl
  | cons d cs =>
    have hd : d ≠ '_' := by
      intro heq
      exact h (by simp [heq])
    rw [List.dropWhile_cons, if_neg (by simpa using hd)]

theorem pyStripUnd_eq_self {l : List Char}
    (h1 : l.head? ≠ some '_') (h2 : l.getLast? ≠ some '_') :
    pyStripUnd l = l := by
  unfold pyStripUnd
  rw [dropWhile_und_eq_self h1, dropWhile_und_eq_self (by rwa [List.head?_reverse]),
    List.reverse_reverse]

theorem head?_dropWhile_und {l : List Char} {c : Char}
    (h : (l.dropWhile (fun c => c = '_')).head? = some c) : c ≠ '_' := by
  induction l with
  | nil => cases h
  | cons d cs ih =>
    rw [List.dropWhile_cons] at h
    by_cases hd : d = '_'
    · rw [if_pos (by simpa using hd)] at h
      exact ih h
    · rw [if_neg (by simpa using hd), List.head?_cons, Option.some.injEq] at h
      exact h ▸ hd

theorem mem_pyStripUnd {l : List Char} {c : Char} (h : c ∈ pyStripUnd l) : c ∈ l := by
  unfold pyStripUnd at h
  rw [List.mem_reverse] at h
  have h2 := List.Sublist.mem h (List.dropWhile_sublist _)
  rw [List.mem_reverse] at h2
  exact List.Sublist.mem h2 (List.dropWhile_sublist _)

theorem undApart_symm {a b : Char} (h : undApart a b) : undApart b a := by
  rintro ⟨rfl, rfl⟩
  exact h ⟨rfl, rfl⟩

theorem chain'_of_suffix {R : Char → Char → Prop} {l₁ l₂ : List Char}
    (h : List.Chain' R l₂) (hs : l₁ <:+ l₂) : List.Chain' R l₁ := by
  obtain ⟨t, rfl⟩ := hs
  exact h.right_of_append

theorem chain'_reverse_undApart {l : List Char} (h : List.Chain' undApart l) :
    List.Chain' undApart l.reverse := by
  rw [List.chain'_reverse]
  exact h.imp (fun a b hab => undApart_symm hab)

theorem chain'_pyStripUnd {l : List Char} (h : List.Chain' undApart l) :
    List.Chain' undApart (pyStripUnd l) := by
  unfold pyStripUnd
  apply chain'_reverse_undApart
  apply chain'_of_suffix _ (List.dropWhile_suffix _)
  apply chain'_reverse_undApart
  exact chain'_of_suffix h (List.dropWhile_suffix _)

theorem head?_pyStripUnd {l : List Char} : (pyStripUnd l).head? ≠ some '_' := by
  unfold pyStripUnd
  rw [List.head?_reverse]
  intro heq
  rcases hw : (List.dropWhile (fun c => c = '_')
      (List.dropWhile (fun c => c = '_') l).reverse) with _ | ⟨d, w⟩
  · rw [hw] at heq; cases heq
  · obtain ⟨t, ht⟩ := List.dropWhile_suffix
      (l := (List.dropWhile (fun c => c = '_') l).reverse) (fun c => c = '_')
    rw [hw] at ht heq
    have h1 : (t ++ d :: w).getLast? = (d :: w).getLast? :=
      List.getLast?_append_of_ne_nil t (List.cons_ne_nil d w)
    rw [ht, List.getLast?_reverse] at h1
    have h2 := h1.trans heq
    exact head?_dropWhile_und h2 rfl

theorem getLast?_pyStripUnd {l : List Char} : (pyStripUnd l).getLast? ≠ some '_' := by
  unfold pyStripUnd
  rw [List.getLast?_reverse]
  intro heq
  exact head?_dropWhile_und heq rfl

theorem chain'_map_upChar {r : List Char}
    (hmem : ∀ c ∈ r, keepChar c = true ∨ c = '_')
    (h : List.Chain' undApart r) :
    List.Chain' undApart (r.map upChar) := by
  induction r with
  | nil => exact List.chain'_nil
  | cons a t ih =>
    rw [List.map_cons]
    obtain ⟨hhead, htail⟩ := List.chain'_cons'.mp h
    refine List.chain'_cons'.mpr
      ⟨?_, ih (fun c hc => hmem c (List.mem_cons_of_mem a hc)) htail⟩
    intro y hy
    rw [List.head?_map] at hy
    rintro ⟨ha, hy'⟩
    rcases hmem a (List.mem_cons_self a t) with hk | rfl
    · exact upChar_ne_und (by simpa [keepChar] using hk) ha
    · rw [Option.mem_def, Option.map_eq_some'] at hy
      obtain ⟨b, hb, rfl⟩ := hy
      have hbne : b ≠ '_' := fun hbe => hhead b (Option.mem_def.mpr hb) ⟨rfl, hbe⟩
      rcases hmem b (List.mem_cons_of_mem _
          (List.mem_of_mem_head? (Option.mem_def.mpr hb))) with hk | rfl
      · exact upChar_ne_und (by simpa [keepChar] using hk) hy'
      · exact hbne rfl

/-- The normalized core of any component name uses only uppercase
alphanumerics and `_`, never puts two underscores together, never starts or
ends with `_`, and is character-wise stable under upper-casing. -/
theorem normalizeCore_props (s : String) :
    (∀ c ∈ (normalizeCore s).data, c ∈ upperKeepChars ∨ c = '_')
    ∧ List.Chain' undApart (normalizeCore s).data
    ∧ (normalizeCore s).data.head? ≠ some '_'
    ∧ (normalizeCore s).data.getLast? ≠ some '_'
    ∧ (∀ c ∈ (normalizeCore s).data, upChar c = c) := by
  have hdata : (normalizeCore s).data = (pyStripUnd (pySub s.data)).map upChar := rfl
  have hrmem : ∀ c ∈ pyStripUnd (pySub s.data), keepChar c = true ∨ c = '_' :=
    fun c hc => mem_collapseGo (mem_pyStripUnd hc)
  have hrch : List.Chain' undApart (pyStripUnd (pySub s.data)) :=
    chain'_pyStripUnd (chain'_collapseGo false s.data)
  rw [hdata]
  refine ⟨?_, chain'_map_upChar hrmem hrch, ?_, ?_, ?_⟩
  · intro c hc
    rw [List.mem_map] at hc
    obtain ⟨d, hd, rfl⟩ := hc
    rcases hrmem d hd with hk | rfl
    · exact Or.inl (upChar_mem_upper (by simpa [keepChar] using hk))
    · exact Or.inr upChar_underscore
  · rw [List.head?_map]
    intro heq
    rw [Option.map_eq_some'] at heq
    obtain ⟨d, hd, hde⟩ := heq
    rcases hrmem d (List.mem_of_mem_head? (Option.mem_def.mpr hd)) with hk | rfl
    · exact upChar_ne_und (by simpa [keepChar] using hk) hde
    · exact head?_pyStripUnd hd
  · rw [List.getLast?_map]
    intro heq
    rw [Option.map_eq_some'] at heq
    obtain ⟨d, hd, hde⟩ := heq
    have hdm : d ∈ pyStripUnd (pySub s.data) := by
      have hh : d ∈ (pyStripUnd (pySub s.data)).reverse.head? := by
        rw [List.head?_reverse]; exact Option.mem_def.mpr hd
      exact List.mem_reverse.mp (List.mem_of_mem_head? hh)
    rcases hrmem d hdm with hk | rfl
    · exact upChar_ne_und (by simpa [keepChar] using hk) hde
    · exact getLast?_pyStripUnd hd
  · intro c hc
    rw [List.mem_map] at hc
    obtain ⟨d, hd, rfl⟩ := hc
    rcases hrmem d hd with hk | rfl
    · exact upChar_idem_keep (by simpa [keepChar] using hk)
    · simp [upChar_underscore]

/-! ### The claims -/

/-- C1 (amended): for every call that passes both recursion guards (the
action is not an enumerated token and is not `SENSITIVE_VIEW`), whose
resource chain reaches a ticket-realm resource with a concrete id, and
whose ticket loads successfully: if activation holds, the decision is
`Deny` exactly when the permission set contains neither the required token
nor `COMPONENT_VIEW` and there is no bypass, and `Abstain` otherwise; if
activation does not hold, the decision is `Abstain`. -/
theorem C1_central_decision (env : Env) (cfg : Config) (action username : String)
    (res : Option Resource) (perm : List String) (r : Resource) (tid : Int) (t : Ticket)
    (hg1 : action ∉ get_permission_actions env)
    (hg2 : action ≠ "SENSITIVE_VIEW")
    (hr : findTicketResource res = some r)
    (hid : r.id = some tid)
    (ht : env.loadTicket tid = some t) :
    (should_check_permissions cfg t = true →
      check_permission env cfg action username res perm =
        (if component_permission env t ∉ perm ∧ "COMPONENT_VIEW" ∉ perm
            ∧ _get_bypass cfg env t username = false
         then Decision.Deny else Decision.Abstain))
    ∧ (should_check_permissions cfg t = false →
      check_permission env cfg action username res perm = Decision.Abstain) := by
  unfold check_permission
  rw [if_neg hg1, if_neg hg2, hr]
  simp only [hid, ht]
  constructor
  · intro h; simp [h]
  · intro h; simp [h]

/-- C1 counterexample to the claim as stated: the call with action
`COMPONENT_VIEW` reaches an existing active ticket, the empty permission
set contains neither the required token nor `COMPONENT_VIEW`, and there is
no bypass, yet the decision is `Abstain`, not `Deny` — the recursion guard
fires first. -/
theorem C1_claim_counterexample :
    ((findTicketResource (some ticketRes)).map Resource.id) = some (some 1)
    ∧ backendEnv.loadTicket 1 = some backendTicket
    ∧ should_check_permissions plainCfg backendTicket = true
    ∧ component_permission backendEnv backendTicket ∉ ([] : List String)
    ∧ "COMPONENT_VIEW" ∉ ([] : List String)
    ∧ _get_bypass plainCfg backendEnv backendTicket "u" = false
    ∧ check_permission backendEnv plainCfg "COMPONENT_VIEW" "u" (some ticketRes) []
        = Decision.Abstain
    ∧ check_permission backendEnv plainCfg "COMPONENT_VIEW" "u" (some ticketRes) []
        ≠ Decision.Deny := by
  decide

/-- C1 witness: the amended central decision rule applied to a concrete
active ticket and an unprivileged caller. -/
theorem C1_central_decision_witness :
    should_check_permissions plainCfg backendTicket = true
    ∧ check_permission backendEnv plainCfg "TICKET_VIEW" "u" (some ticketRes) [] =
        (if component_permission backendEnv backendTicket ∉ ([] : List String)
            ∧ "COMPONENT_VIEW" ∉ ([] : List String)
            ∧ _get_bypass plainCfg backendEnv backendTicket "u" = false
         then Decision.Deny else Decision.Abstain) :=
  ⟨by decide,
   (C1_central_decision backendEnv plainCfg "TICKET_VIEW" "u" (some ticketRes) []
      ticketRes 1 backendTicket (by decide) (by decide) rfl rfl rfl).1 (by decide)⟩

/-- C2 (amended): when the action passes both recursion guards, the
resource chain reaches a ticket-realm resource with a concrete id, and the
ticket load fails with `ResourceNotFound`, the decision is `Deny` exactly
when the caller's permission set lacks `COMPONENT_VIEW` (enforcement
treated as active, bypass as false), and `Abstain` otherwise. -/
theorem C2_fail_closed (env : Env) (cfg : Config) (action username : String)
    (res : Option Resource) (perm : List String) (r : Resource) (tid : Int)
    (hg1 : action ∉ get_permission_actions env)
    (hg2 : action ≠ "SENSITIVE_VIEW")
    (hr : findTicketResource res = some r)
    (hid : r.id = some tid)
    (ht : env.loadTicket tid = none) :
    check_permission env cfg action username res perm =
      (if "COMPONENT_VIEW" ∈ perm then Decision.Abstain else Decision.Deny) := by
  unfold check_permission
  rw [if_neg hg1, if_neg hg2, hr]
  simp only [hid, ht]
  by_cases hm : "COMPONENT_VIEW" ∈ perm <;> simp [hm]

/-- C2 counterexample to the claim as stated: ticket 7 does not exist, the
resource chain reaches a ticket-realm resource with that concrete id, yet
for a caller holding `COMPONENT_VIEW` the decision is `Abstain`, not
`Deny`. -/
theorem C2_claim_counterexample :
    ((findTicketResource (some res7)).map Resource.id) = some (some 7)
    ∧ backendEnv.loadTicket 7 = none
    ∧ check_permission backendEnv plainCfg "TICKET_VIEW" "u" (some res7)
        ["COMPONENT_VIEW"] = Decision.Abstain
    ∧ check_permission backendEnv plainCfg "TICKET_VIEW" "u" (some res7)
        ["COMPONENT_VIEW"] ≠ Decision.Deny := by
  decide

/-- C2 witness: the amended fail-closed rule applied to the missing ticket
7 and a caller with no permissions, yielding `Deny`. -/
theorem C2_fail_closed_witness :
    check_permission backendEnv plainCfg "TICKET_VIEW" "u" (some res7) [] =
      (if "COMPONENT_VIEW" ∈ ([] : List String)
       then Decision.Abstain else Decision.Deny) :=
  C2_fail_closed backendEnv plainCfg "TICKET_VIEW" "u" (some res7) [] res7 7
    (by decide) (by decide) rfl rfl rfl

/-- C3: `check_permission` never returns an affirmative grant — on every
input the decision is `Abstain` or `Deny`, never `Allow`. -/
theorem C3_never_allow (env : Env) (cfg : Config) (action username : String)
    (res : Option Resource) (perm : List String) :
    check_permission env cfg action username res perm ≠ Decision.Allow := by
  unfold check_permission
  (repeat' split) <;> decide

/-- C4: whenever the caller's permission set contains `COMPONENT_VIEW`,
`check_permission` never returns `Deny` — including on active tickets
without bypass and when the ticket load fails with `ResourceNotFound`. -/
theorem C4_component_view_sufficient (env : Env) (cfg : Config)
    (action username : String) (res : Option Resource) (perm : List String)
    (h : "COMPONENT_VIEW" ∈ perm) :
    check_permission env cfg action username res perm ≠ Decision.Deny := by
  unfold check_permission
  (repeat' split) <;> simp_all

/-- C4 witness: a caller holding `COMPONENT_VIEW` is not denied even on the
missing ticket 7. -/
theorem C4_component_view_sufficient_witness :
    check_permission backendEnv plainCfg "TICKET_VIEW" "u" (some res7)
      ["COMPONENT_VIEW"] ≠ Decision.Deny :=
  C4_component_view_sufficient backendEnv plainCfg "TICKET_VIEW" "u" (some res7)
    ["COMPONENT_VIEW"] (by decide)

/-- C5: when the action is one of the tokens enumerated by
`get_permission_actions` (which always include `COMPONENT_VIEW`) or is the
reserved `SENSITIVE_VIEW` token, `check_permission` abstains immediately,
for every username, resource and permission set. -/
theorem C5_recursion_guard (env : Env) (cfg : Config) (action username : String)
    (res : Option Resource) (perm : List String)
    (h : action ∈ get_permission_actions env ∨ action = "SENSITIVE_VIEW") :
    check_permission env cfg action username res perm = Decision.Abstain := by
  unfold check_permission
  rcases h with h | h
  · rw [if_pos h]
  · by_cases hm : action ∈ get_permission_actions env
    · rw [if_pos hm]
    · rw [if_neg hm, if_pos h]

/-- C5 witness: `COMPONENT_VIEW` itself is adjudicated as `Abstain`. -/
theorem C5_recursion_guard_witness :
    check_permission backendEnv plainCfg "COMPONENT_VIEW" "anyone" none []
      = Decision.Abstain :=
  C5_recursion_guard backendEnv plainCfg "COMPONENT_VIEW" "anyone" none []
    (Or.inl (by decide))

/-- C6: an empty or anonymous username never has bypass, whatever the
configuration, ticket and identity service; and on the spec's sample ticket
`{owner: alice, reporter: bob, cc: "carol, dave@x.com"}` under
`{allow_owner, ¬allow_reporter, allow_cc, ¬allow_cc_email}`, bypass holds
for alice and carol but not for bob or anonymous. -/
theorem C6_bypass_truth_table :
    (∀ (cfg : Config) (env : Env) (t : Ticket),
      _get_bypass cfg env t "" = false ∧ _get_bypass cfg env t "anonymous" = false)
    ∧ _get_bypass tableCfg emptyEnv tableTicket "alice" = true
    ∧ _get_bypass tableCfg emptyEnv tableTicket "bob" = false
    ∧ _get_bypass tableCfg emptyEnv tableTicket "carol" = true
    ∧ _get_bypass tableCfg emptyEnv tableTicket "anonymous" = false := by
  refine ⟨fun cfg env t => ⟨?_, ?_⟩, by decide, by decide, by decide, by decide⟩
  · unfold _get_bypass; rw [if_pos (Or.inl rfl)]
  · unfold _get_bypass; rw [if_pos (Or.inr rfl)]

/-- C7: the derivation algorithm. The three examples of the spec hold; the
derived token is `COMPONENT_<core>_VIEW` for a non-empty normalized core
and `none` for an empty one; and the normalized core realizes the described
normalization: only uppercase alphanumerics separated by single
underscores, with no underscore at either end. -/
theorem C7_derivation_algorithm :
    _get_permission_name "Front End" = some "COMPONENT_FRONT_END_VIEW"
    ∧ _get_permission_name "---" = none
    ∧ _get_permission_name "a1 b-2" = some "COMPONENT_A1_B_2_VIEW"
    ∧ (∀ s : String, _get_permission_name s =
        (if normalizeCore s = "" then none
         else some ("COMPONENT_" ++ normalizeCore s ++ "_VIEW")))
    ∧ (∀ s : String,
        (∀ c ∈ (normalizeCore s).data, c ∈ upperKeepChars ∨ c = '_')
        ∧ List.Chain' undApart (normalizeCore s).data
        ∧ (normalizeCore s).data.head? ≠ some '_'
        ∧ (normalizeCore s).data.getLast? ≠ some '_') := by
  refine ⟨by decide, by decide, by decide, ?_, ?_⟩
  · intro s
    unfold _get_permission_name
    by_cases h : normalizeCore s = "" <;> simp [h]
  · intro s
    obtain ⟨h1, h2, h3, h4, -⟩ := normalizeCore_props s
    exact ⟨h1, h2, h3, h4⟩

/-- C8: derivation is deterministic (a pure function applied twice to the
same name gives the same token), and the collapse–strip–uppercase
normalization is idempotent: re-applying it to an already-normalized core
is a no-op. -/
theorem C8_derivation_idempotent :
    (∀ n : String, _get_permission_name n = _get_permission_name n)
    ∧ ∀ s : String, normalizeCore (normalizeCore s) = normalizeCore s := by
  refine ⟨fun n => rfl, fun s => ?_⟩
  obtain ⟨hmem, hch, hhead, hlast, hfix⟩ := normalizeCore_props s
  have hkm : ∀ c ∈ (normalizeCore s).data, keepChar c = true ∨ c = '_' := by
    intro c hc
    rcases hmem c hc with hk | rfl
    · exact Or.inl (decide_eq_true (upper_mem_keep hk))
    · exact Or.inr rfl
  have h1 : pySub (normalizeCore s).data = (normalizeCore s).data :=
    (collapseGo_fix hkm hch).1
  have h2 : pyStripUnd (normalizeCore s).data = (normalizeCore s).data :=
    pyStripUnd_eq_self hhead hlast
  have h3 : (normalizeCore s).data.map upChar = (normalizeCore s).data :=
    (List.map_congr_left hfix).trans (List.map_id _)
  show String.mk ((pyStripUnd (pySub (normalizeCore s).data)).map upChar)
      = normalizeCore s
  rw [h1, h2, h3]

/-- C9: the post-render filter leaves everything unchanged unless
`hide_components` is set and the activation field name is empty; when it
does act on a `component` field's option list it keeps exactly the options
whose derived token the user holds; in particular `["Backend","Frontend"]`
filtered for a user holding only `COMPONENT_FRONTEND_VIEW` is
`["Frontend"]`. -/
theorem C9_visibility_filter :
    (∀ (cfg : Config) (reqPerm : List String) props (template : String)
        (data : PageData) (ct : String),
      (cfg.hide_components = false ∨ cfg.ticket_field_name ≠ "") →
      post_process_request cfg reqPerm props template data ct
        = ⟨template, data, ct, props⟩)
    ∧ (∀ (cfg : Config) (reqPerm : List String) props (template ct : String)
        q g e (opts : List String) (rest : List Field),
      cfg.hide_components = true → cfg.ticket_field_name = "" →
      "COMPONENT_VIEW" ∉ reqPerm → template ∈ knownTemplates →
      (post_process_request cfg reqPerm props template
          ⟨some (Field.mk "component" opts :: rest), q, g, e⟩ ct).data.fields
        = some (Field.mk "component" (opts.filter (derivedInPerm reqPerm)) :: rest))
    ∧ (post_process_request hideCfg ["COMPONENT_FRONTEND_VIEW"] none "ticket.html"
          ⟨some [Field.mk "component" ["Backend", "Frontend"]], none, none, []⟩
          "text/html").data.fields
        = some [Field.mk "component" ["Frontend"]] := by
  refine ⟨?_, ?_, by decide⟩
  · intro cfg reqPerm props template data ct h
    unfold post_process_request
    rw [if_neg]
    rintro ⟨h1, h2, -⟩
    rcases h with h | h
    · rw [h1] at h; cases h
    · exact h h2
  · intro cfg reqPerm props template ct q g e opts rest h1 h2 h3 h4
    unfold post_process_request
    rw [if_pos ⟨h1, h2, h3, h4⟩]
    simp [filterComponentField]

/-- C9 witness: the filter leaves data alone when `hide_components` is off,
and filters a concrete component option list when it acts. -/
theorem C9_visibility_filter_witness :
    post_process_request plainCfg [] none "ticket.html" emptyData "text/html"
      = ⟨"ticket.html", emptyData, "text/html", none⟩
    ∧ (post_process_request hideCfg [] none "ticket.html"
          ⟨some [Field.mk "component" ["Backend"]], none, none, []⟩
          "text/html").data.fields
        = some [Field.mk "component" (["Backend"].filter (derivedInPerm []))] :=
  ⟨C9_visibility_filter.1 plainCfg [] none "ticket.html" emptyData "text/html"
     (Or.inl rfl),
   C9_visibility_filter.2.1 hideCfg [] none "ticket.html" "text/html" none none []
     ["Backend"] [] rfl rfl (by decide) (by decide)⟩

/-- C10: `post_process_request` keeps the template and content type, never
touches the `extra` entries or the query object, returns the data entirely
unchanged whenever the guard fails (`hide_components` off, activation field
set, `COMPONENT_VIEW` held, or unknown template), and otherwise changes at
most the options of fields named `component` and the component-keyed query
groups (only filtering existing entries). -/
theorem C10_post_process_frame (cfg : Config) (reqPerm : List String)
    (props : Option (List (String × List String))) (template : String)
    (data : PageData) (ct : String) :
    ((post_process_request cfg reqPerm props template data ct).template = template
     ∧ (post_process_request cfg reqPerm props template data ct).content_type = ct
     ∧ (post_process_request cfg reqPerm props template data ct).data.extra = data.extra
     ∧ (post_process_request cfg reqPerm props template data ct).data.query = data.query)
    ∧ (¬(cfg.hide_components = true ∧ cfg.ticket_field_name = ""
          ∧ "COMPONENT_VIEW" ∉ reqPerm ∧ template ∈ knownTemplates) →
        post_process_request cfg reqPerm props template data ct
          = ⟨template, data, ct, props⟩)
    ∧ (data.fields = none →
        (post_process_request cfg reqPerm props template data ct).data.fields = none)
    ∧ (∀ fs, data.fields = some fs →
        ∃ fs', (post_process_request cfg reqPerm props template data ct).data.fields
            = some fs'
          ∧ fs'.length = fs.length
          ∧ ∀ i : Nat, fs'[i]? = fs[i]?
              ∨ ∃ f : Field, fs[i]? = some f ∧ f.name = "component"
                  ∧ fs'[i]? = some (Field.mk "component"
                      (f.options.filter (derivedInPerm reqPerm))))
    ∧ ((∀ q, data.query = some q → q.group ≠ "component") →
        (post_process_request cfg reqPerm props template data ct).data.groups
          = data.groups)
    ∧ (∀ gs, data.groups = some gs →
        (post_process_request cfg reqPerm props template data ct).data.groups = some gs
        ∨ (post_process_request cfg reqPerm props template data ct).data.groups
            = some (gs.filter (fun g => derivedInPerm reqPerm g.1))) := by
  obtain ⟨dfields, dquery, dgroups, dextra⟩ := data
  by_cases hc : cfg.hide_components = true ∧ cfg.ticket_field_name = ""
      ∧ "COMPONENT_VIEW" ∉ reqPerm ∧ template ∈ knownTemplates
  · unfold post_process_request
    rw [if_pos hc]
    refine ⟨⟨rfl, rfl, rfl, rfl⟩, fun h => absurd hc h, ?_, ?_, ?_, ?_⟩
    · intro h
      simp only at h
      subst h
      rfl
    · intro fs hfs
      simp only at hfs
      subst hfs
      by_cases he : fs.isEmpty
      · exact ⟨fs, by simp [he], rfl, fun i => Or.inl rfl⟩
      · refine ⟨filterComponentField reqPerm fs, by simp [he],
          filterComponentField_length reqPerm fs, ?_⟩
        intro i
        simpa using filterComponentField_getElem reqPerm fs i
    · intro hq
      cases dquery with
      | none => cases dgroups <;> rfl
      | some q =>
        cases dgroups with
        | none => rfl
        | some gs => simp [hq q rfl]
    · intro gs hgs
      simp only at hgs
      subst hgs
      cases dquery with
      | none => left; rfl
      | some q =>
        by_cases hg : q.group = "component"
        · right; simp [hg]
        · left; simp [hg]
  · unfold post_process_request
    rw [if_neg hc]
    exact ⟨⟨rfl, rfl, rfl, rfl⟩, fun _ => rfl, fun h => h,
      fun fs hfs => ⟨fs, hfs, rfl, fun i => Or.inl rfl⟩,
      fun _ => rfl, fun gs hgs => Or.inl hgs⟩

/-- C10 witness: on an unknown template with `hide_components` set, the
filter returns template, data and content type unchanged. -/
theorem C10_post_process_frame_witness :
    post_process_request hideCfg [] none "other.html" emptyData "text/html"
      = ⟨"other.html", emptyData, "text/html", none⟩ :=
  (C10_post_process_frame hideCfg [] none "other.html" emptyData "text/html").2.1
    (by decide)

end ComponentPermissions
